import Mathlib

/-!
Shallow embedding of the unibook-server scheduling and staff-assignment core
(src/controllers/forumController.ts, src/controllers/teacherController.ts,
src/db/schema.ts).  Timestamps are modelled as integers (milliseconds since
epoch ordering is all the code uses), uuids as naturals, and the relational
store as in-memory lists of rows.  Each controller is translated into a pure
function from a database state and request data to `Except ApiError` of the
new state and response row; a thrown error inside a `db.transaction` rolls the
transaction back, which the embedding renders as returning `.error` with no
successor state.
-/

namespace Unibook

/-- `user_role` enum of schema.ts. -/
inductive Role where
  | collegeAdmin
  | forumHead
  | teacher
  | student
deriving DecidableEq

/-- `event_status` enum of schema.ts. -/
inductive EventStatus where
  | draft
  | pendingApproval
  | confirmed
  | cancelled
deriving DecidableEq

/-- `approval_status` enum of schema.ts, also used for staff assignments. -/
inductive ApprovalStatus where
  | pending
  | approved
  | rejected
deriving DecidableEq

/-- A row of the `events` table (schema.ts). -/
structure Event where
  id : Nat
  name : String
  description : Option String
  startTime : Int
  endTime : Int
  status : EventStatus
  bannerImage : Option String
  resizeMode : Option String
  registrationLink : Option String
  collegeId : Nat
  venueId : Option Nat
  organizerId : Nat
  forumId : Nat
deriving DecidableEq

/-- A row of the `venues` table (schema.ts). -/
structure Venue where
  id : Nat
  name : String
  capacity : Int
  collegeId : Nat
deriving DecidableEq

/-- A row of the `users` table (schema.ts); fields the core reads. -/
structure User where
  id : Nat
  fullName : String
  role : Role
  approvalStatus : ApprovalStatus
  collegeId : Nat
deriving DecidableEq

/-- A row of the `event_staff_assignments` table (schema.ts). -/
structure StaffAssignment where
  id : Nat
  assignmentRole : String
  status : ApprovalStatus
  eventId : Nat
  userId : Nat
deriving DecidableEq

/-- A row of the `forum_heads` table (schema.ts). -/
structure ForumHead where
  userId : Nat
  forumId : Nat
  isVerified : Bool
deriving DecidableEq

/-- The relational store: one list of rows per table the core touches. -/
structure DB where
  events : List Event
  venues : List Venue
  users : List User
  assignments : List StaffAssignment
  forumHeads : List ForumHead
deriving DecidableEq

/-- The distinguishable error kinds the controllers raise (each corresponds to
one thrown message / early `reply.code(...)` in the source).
`scheduleConflict` carries the conflicting event's name, as the thrown message
interpolates it. -/
inductive ApiError where
  | missingFields
  | invalidInterval
  | venueConflict
  | missingCollege
  | notFound
  | forbidden
  | invalidRole
  | notPendingForumHead
  | duplicateRequest
  | scheduleConflict (conflictingName : String)
  | internalError
deriving DecidableEq

/-- JavaScript `x || d` for an optional string: `undefined`, `null` and the
empty string are all falsy and give the default. -/
def jsOrStr (o : Option String) (d : String) : String :=
  match o with
  | some s => if s = "" then d else s
  | none => d

/-- JavaScript `x || d` where `x : string | null | undefined`
(outer `none` = field absent, `some none` = explicit null). -/
def jsOrStr2 (o : Option (Option String)) (d : String) : String :=
  match o with
  | some (some s) => if s = "" then d else s
  | _ => d

/-- The venue-booking overlap test of createEvent / updateEvent, exactly as the
drizzle `or(and(gte …, lte …), …)` condition is written in
forumController.ts (note: the bounds are inclusive):
`(s ≤ ev.start ≤ e) OR (s ≤ ev.end ≤ e) OR (ev.start ≤ s AND ev.end ≥ e)`. -/
def overlapSqlB (s e : Int) (ev : Event) : Bool :=
  (ev.startTime ≥ s && ev.startTime ≤ e) ||
  (ev.endTime ≥ s && ev.endTime ≤ e) ||
  (ev.startTime ≤ s && ev.endTime ≥ e)

/-- The in-process overlap test of requestStaffForEvent / acceptStaffRequest:
`newStart < existing.end && newEnd > existing.start` (strict, half-open). -/
def overlapHalfOpen (s1 e1 s2 e2 : Int) : Bool :=
  s1 < e2 && s2 < e1

/-- `tx.query.events.findFirst({where: eq(events.id, a.eventId)})`, the lookup
performed by the drizzle `with: \x7b event: true \x7d` join on an assignment. -/
def evOf (evs : List Event) (a : StaffAssignment) : Option Event :=
  evs.find? (fun ev => ev.id == a.eventId)

/-- Step D/E of requestStaffForEvent and step B of acceptStaffRequest: walk the
teacher's `approved` assignments (joined with their events) and return the
first event that overlaps the window `[s, e)` half-openly. -/
def approvedConflict (db : DB) (s e : Int) (teacherId : Nat) : Option Event :=
  let approved := db.assignments.filter
    (fun a => a.userId == teacherId && a.status == ApprovalStatus.approved)
  (approved.filterMap (fun a => evOf db.events a)).find?
    (fun ev2 => overlapHalfOpen s e ev2.startTime ev2.endTime)

/-- Request body of POST /events (createEvent). -/
structure CreateEventInput where
  name : String
  description : Option String
  startTime : Int
  endTime : Int
  venueId : Option Nat
  registrationLink : Option String
  bannerImage : Option String
  resizeMode : Option String
  forumId : Nat
deriving DecidableEq

/-- The conflict lookup of createEvent: a `findFirst` over all events at the
requested venue (no status filter, no tenant filter) against the SQL overlap
condition; skipped when no venue was requested. -/
def createHasConflict (db : DB) (input : CreateEventInput) : Bool :=
  match input.venueId with
  | some v =>
    (db.events.find? (fun ev =>
      ev.venueId == some v && overlapSqlB input.startTime input.endTime ev)).isSome
  | none => false

/-- createEvent (forumController.ts).  `collegeId` is the caller's tenant from
the JWT (possibly absent).  `newId` stands for the uuid the store generates
for the inserted row.  The venue projection joined onto the HTTP response is
elided; the state change and returned event row are modelled. -/
def createEvent (db : DB) (organizerId : Nat) (collegeId : Option Nat)
    (input : CreateEventInput) (newId : Nat) : Except ApiError (DB × Event) :=
  if input.name = "" then .error .missingFields
  else if input.startTime ≥ input.endTime then .error .invalidInterval
  else
    if createHasConflict db input then .error .venueConflict
    else
      match collegeId with
      | none => .error .missingCollege
      | some c =>
        let ev : Event :=
          { id := newId
            name := input.name
            description := input.description
            startTime := input.startTime
            endTime := input.endTime
            status := EventStatus.confirmed
            bannerImage := input.bannerImage
            resizeMode := input.resizeMode
            registrationLink := input.registrationLink
            collegeId := c
            venueId := input.venueId
            organizerId := organizerId
            forumId := input.forumId }
        .ok ({ db with events := db.events ++ [ev] }, ev)

/-- Request body of PUT /events/:eventId (updateEvent); every field optional,
the `string | null` fields use a nested option (`some none` = explicit null). -/
structure UpdateEventInput where
  name : Option String
  description : Option String
  startTime : Option Int
  endTime : Option Int
  venueId : Option (Option Nat)
  registrationLink : Option (Option String)
  bannerImage : Option (Option String)
  resizeMode : Option (Option String)
deriving DecidableEq

/-- The empty update body (all fields omitted). -/
def emptyUpdate : UpdateEventInput :=
  { name := none, description := none, startTime := none, endTime := none
    venueId := none, registrationLink := none, bannerImage := none
    resizeMode := none }

/-- `updateData.startTime ? new Date(updateData.startTime) : existingEvent.startTime`. -/
def effStart (u : UpdateEventInput) (existing : Event) : Int :=
  u.startTime.getD existing.startTime

/-- `updateData.endTime ? new Date(updateData.endTime) : existingEvent.endTime`. -/
def effEnd (u : UpdateEventInput) (existing : Event) : Int :=
  u.endTime.getD existing.endTime

/-- `updateData.venueId !== undefined ? updateData.venueId : existingEvent.venueId`. -/
def effVenue (u : UpdateEventInput) (existing : Event) : Option Nat :=
  match u.venueId with
  | some v => v
  | none => existing.venueId

/-- The truthiness test `(updateData.startTime || updateData.endTime ||
updateData.venueId)` guarding the conflict re-check in updateEvent. -/
def updTriggersCheck (u : UpdateEventInput) : Bool :=
  u.startTime.isSome || u.endTime.isSome ||
    (match u.venueId with
     | some (some _) => true
     | _ => false)

/-- The drizzle `.set(\x7b … \x7d)` of updateEvent applied to one row: keys
whose value is `undefined` are dropped from the UPDATE, `null` values null the
column, and `resizeMode` is unconditionally set to
`updateData.resizeMode || "cover"`. -/
def applyEventUpdate (u : UpdateEventInput) (ev : Event) : Event :=
  { ev with
    name := u.name.getD ev.name
    description := match u.description with
      | some d => some d
      | none => ev.description
    startTime := effStart u ev
    endTime := effEnd u ev
    venueId := match u.venueId with
      | some v => v
      | none => ev.venueId
    registrationLink := match u.registrationLink with
      | some v => v
      | none => ev.registrationLink
    bannerImage := match u.bannerImage with
      | some v => v
      | none => ev.bannerImage
    resizeMode := some (jsOrStr2 u.resizeMode "cover") }

/-- The conflict re-check of updateEvent: only run when the effective venue is
set and one of startTime/endTime/venueId was supplied (truthily), and with the
event's own row excluded via `not(eq(events.id, eventId))`. -/
def updateHasConflict (db : DB) (eventId : Nat) (u : UpdateEventInput)
    (existing : Event) : Bool :=
  match effVenue u existing with
  | some v =>
    updTriggersCheck u &&
      (db.events.find? (fun ev =>
        ev.venueId == some v && ev.id != eventId &&
          overlapSqlB (effStart u existing) (effEnd u existing) ev)).isSome
  | none => false

/-- updateEvent (forumController.ts). -/
def updateEvent (db : DB) (role : Role) (collegeId : Option Nat)
    (eventId : Nat) (u : UpdateEventInput) : Except ApiError (DB × Event) :=
  match collegeId with
  | none => .error .missingCollege
  | some c =>
    match db.events.find? (fun ev => ev.id == eventId && ev.collegeId == c) with
    | none => .error .notFound
    | some existing =>
      if role ≠ Role.forumHead then .error .forbidden
      else
        if updateHasConflict db eventId u existing then .error .venueConflict
        else
          .ok ({ db with events :=
                   db.events.map (fun ev =>
                     if ev.id == eventId then applyEventUpdate u ev else ev) },
               applyEventUpdate u existing)

/-- requestStaffForEvent (forumController.ts).  `collegeId` is the caller's
tenant; `newId` the generated id of the inserted assignment row. -/
def requestStaffForEvent (db : DB) (collegeId : Option Nat) (eventId : Nat)
    (teacherUserId : Nat) (assignmentRole : Option String) (newId : Nat) :
    Except ApiError (DB × StaffAssignment) :=
  match db.events.find? (fun ev => ev.id == eventId) with
  | none => .error .notFound
  | some event =>
    match db.users.find? (fun us => us.id == teacherUserId) with
    | none => .error .notFound
    | some teacherUser =>
      if some event.collegeId ≠ collegeId ∨ some teacherUser.collegeId ≠ collegeId then
        .error .forbidden
      else if teacherUser.role ≠ Role.teacher then .error .invalidRole
      else if (db.assignments.find? (fun a =>
          a.eventId == eventId && a.userId == teacherUserId)).isSome then
        .error .duplicateRequest
      else
        match approvedConflict db event.startTime event.endTime teacherUserId with
        | some conflicting => .error (.scheduleConflict conflicting.name)
        | none =>
          let a : StaffAssignment :=
            { id := newId
              assignmentRole := jsOrStr assignmentRole "Staff in Charge"
              status := ApprovalStatus.pending
              eventId := eventId
              userId := teacherUserId }
          .ok ({ db with assignments := db.assignments ++ [a] }, a)

/-- acceptStaffRequest (teacherController.ts). -/
def acceptStaffRequest (db : DB) (teacherId : Nat) (assignmentId : Nat) :
    Except ApiError (DB × StaffAssignment) :=
  match db.assignments.find? (fun a =>
      a.id == assignmentId && a.userId == teacherId &&
        a.status == ApprovalStatus.pending) with
  | none => .error .notFound
  | some assignmentToAccept =>
    match evOf db.events assignmentToAccept with
    | none => .error .internalError
    | some eventToJoin =>
      match approvedConflict db eventToJoin.startTime eventToJoin.endTime teacherId with
      | some conflicting => .error (.scheduleConflict conflicting.name)
      | none =>
        let upd := fun (x : StaffAssignment) =>
          if x.id == assignmentId then { x with status := ApprovalStatus.approved } else x
        .ok ({ db with assignments := db.assignments.map upd }, upd assignmentToAccept)

/-- rejectStaffRequest (teacherController.ts). -/
def rejectStaffRequest (db : DB) (teacherId : Nat) (assignmentId : Nat) :
    Except ApiError (DB × StaffAssignment) :=
  match db.assignments.find? (fun a =>
      a.id == assignmentId && a.userId == teacherId &&
        a.status == ApprovalStatus.pending) with
  | none => .error .notFound
  | some assignmentToReject =>
    let upd := fun (x : StaffAssignment) =>
      if x.id == assignmentId then { x with status := ApprovalStatus.rejected } else x
    .ok ({ db with assignments := db.assignments.map upd }, upd assignmentToReject)

/-- cancelStaffRequest (teacherController.ts): scoped load of an `approved`
assignment, then the row is deleted. -/
def cancelStaffRequest (db : DB) (teacherId : Nat) (assignmentId : Nat) :
    Except ApiError DB :=
  match db.assignments.find? (fun a =>
      a.id == assignmentId && a.userId == teacherId &&
        a.status == ApprovalStatus.approved) with
  | none => .error .notFound
  | some _ =>
    .ok { db with assignments := db.assignments.filter (fun x => x.id != assignmentId) }

/-- deleteEvent (forumController.ts).  The `onDelete: "cascade"` of
event_staff_assignments.eventId is made explicit. -/
def deleteEvent (db : DB) (userId : Nat) (role : Role) (collegeId : Option Nat)
    (eventId : Nat) : Except ApiError DB :=
  match collegeId with
  | none => .error .missingCollege
  | some c =>
    match db.events.find? (fun ev => ev.id == eventId && ev.collegeId == c) with
    | none => .error .notFound
    | some existingEvent =>
      if existingEvent.organizerId ≠ userId ∧ role ≠ Role.collegeAdmin then
        .error .forbidden
      else
        .ok { db with
              events := db.events.filter (fun ev => ev.id != eventId)
              assignments := db.assignments.filter (fun a => a.eventId != eventId) }

/-- approveForumHead (forumController.ts). -/
def approveForumHead (db : DB) (approverId : Nat) (approverRole : Role)
    (targetUserId : Nat) : Except ApiError (DB × User) :=
  if approverRole ≠ Role.forumHead then .error .forbidden
  else
    match db.users.find? (fun us => us.id == approverId),
          db.users.find? (fun us => us.id == targetUserId) with
    | none, _ => .error .notFound
    | _, none => .error .notFound
    | some approver, some targetUser =>
      let approverForumAssignments := db.forumHeads.filter (fun f => f.userId == approverId)
      let targetForumAssignments := db.forumHeads.filter (fun f => f.userId == targetUserId)
      if approver.approvalStatus ≠ ApprovalStatus.approved then .error .forbidden
      else if targetUser.approvalStatus ≠ ApprovalStatus.pending ∨
          targetUser.role ≠ Role.forumHead then .error .notPendingForumHead
      else if approver.collegeId ≠ targetUser.collegeId then .error .forbidden
      else if ¬ targetForumAssignments.any (fun a =>
          approverForumAssignments.any (fun b => b.forumId == a.forumId)) then
        .error .forbidden
      else
        match approverForumAssignments with
        | [] => .error .internalError
        | f :: _ =>
          let upd := fun (us : User) =>
            if us.id == targetUserId then { us with approvalStatus := ApprovalStatus.approved } else us
          .ok ({ db with
                 users := db.users.map upd
                 forumHeads := db.forumHeads ++
                   [{ userId := targetUserId, forumId := f.forumId, isVerified := true }] },
               upd targetUser)

/-- rejectForumHead (forumController.ts).  After the same checks as approval it
sets the target to `rejected` and deletes every forum_heads row of the target
(`delete(forum_heads).where(eq(forum_heads.userId, targetUserId))`). -/
def rejectForumHead (db : DB) (rejecterId : Nat) (rejecterRole : Role)
    (targetUserId : Nat) : Except ApiError (DB × User) :=
  if rejecterRole ≠ Role.forumHead then .error .forbidden
  else
    match db.users.find? (fun us => us.id == rejecterId),
          db.users.find? (fun us => us.id == targetUserId) with
    | none, _ => .error .notFound
    | _, none => .error .notFound
    | some rejecter, some targetUser =>
      let rejecterForumAssignments := db.forumHeads.filter (fun f => f.userId == rejecterId)
      let targetForumAssignments := db.forumHeads.filter (fun f => f.userId == targetUserId)
      if rejecter.approvalStatus ≠ ApprovalStatus.approved then .error .forbidden
      else if targetUser.approvalStatus ≠ ApprovalStatus.pending ∨
          targetUser.role ≠ Role.forumHead then .error .notPendingForumHead
      else if rejecter.collegeId ≠ targetUser.collegeId then .error .forbidden
      else if ¬ targetForumAssignments.any (fun a =>
          rejecterForumAssignments.any (fun b => b.forumId == a.forumId)) then
        .error .forbidden
      else
        let upd := fun (us : User) =>
          if us.id == targetUserId then { us with approvalStatus := ApprovalStatus.rejected } else us
        .ok ({ db with
               users := db.users.map upd
               forumHeads := db.forumHeads.filter (fun f => f.userId != targetUserId) },
             upd targetUser)

/-- One pair of assignments is schedule-compatible: when both events resolve,
their half-open intervals do not overlap. -/
def assignPairOk (evs : List Event) (a1 a2 : StaffAssignment) : Bool :=
  match evOf evs a1, evOf evs a2 with
  | some e1, some e2 =>
    !(overlapHalfOpen e1.startTime e1.endTime e2.startTime e2.endTime)
  | _, _ => true

/-- The teacher-schedule invariant: the events of any two distinct `approved`
assignments of teacher `t` have non-overlapping intervals. -/
def schedOk (evs : List Event) (as : List StaffAssignment) (t : Nat) : Prop :=
  ∀ a1 ∈ as, ∀ a2 ∈ as,
    a1.userId = t → a2.userId = t →
    a1.status = ApprovalStatus.approved → a2.status = ApprovalStatus.approved →
    a1.id ≠ a2.id → assignPairOk evs a1 a2 = true

instance (evs : List Event) (as : List StaffAssignment) (t : Nat) :
    Decidable (schedOk evs as t) := by
  unfold schedOk
  infer_instance

/-! Concrete states used by the counterexamples and witnesses below.
Times are minutes; e.g. 600 = 10:00, 660 = 11:00. -/

/-- Event A of the C1 scenario: venue 1, `[10:00, 11:00)`. -/
def evC1A : Event :=
  { id := 1, name := "A", description := none, startTime := 600, endTime := 660
    status := EventStatus.confirmed, bannerImage := none, resizeMode := none
    registrationLink := none, collegeId := 1, venueId := some 1
    organizerId := 9, forumId := 3 }

def dbC1 : DB :=
  { events := [evC1A], venues := [], users := [], assignments := [], forumHeads := [] }

/-- Event C of the C1 scenario: venue 1, `[11:00, 12:00)`, adjacent to A. -/
def inC1adj : CreateEventInput :=
  { name := "C", description := none, startTime := 660, endTime := 720
    venueId := some 1, registrationLink := none, bannerImage := none
    resizeMode := none, forumId := 3 }

/-- Event B of the C1 scenario: venue 1, `[10:30, 11:30)`, overlapping A. -/
def inC1ov : CreateEventInput :=
  { name := "B", description := none, startTime := 630, endTime := 690
    venueId := some 1, registrationLink := none, bannerImage := none
    resizeMode := none, forumId := 3 }

def evC2A : Event :=
  { id := 1, name := "A2", description := none, startTime := 0, endTime := 10
    status := EventStatus.confirmed, bannerImage := none, resizeMode := none
    registrationLink := none, collegeId := 1, venueId := none
    organizerId := 9, forumId := 3 }

def evC2B : Event :=
  { id := 2, name := "B2", description := none, startTime := 20, endTime := 30
    status := EventStatus.confirmed, bannerImage := none, resizeMode := none
    registrationLink := none, collegeId := 1, venueId := none
    organizerId := 9, forumId := 3 }

def teacher5 : User :=
  { id := 5, fullName := "T", role := Role.teacher
    approvalStatus := ApprovalStatus.approved, collegeId := 1 }

def asgC2a : StaffAssignment :=
  { id := 1, assignmentRole := "Staff in Charge"
    status := ApprovalStatus.approved, eventId := 1, userId := 5 }

def asgC2b : StaffAssignment :=
  { id := 2, assignmentRole := "Staff in Charge"
    status := ApprovalStatus.approved, eventId := 2, userId := 5 }

/-- Teacher 5 holds approved assignments to the disjoint events A2 and B2. -/
def dbC2 : DB :=
  { events := [evC2A, evC2B], venues := [], users := [teacher5]
    assignments := [asgC2a, asgC2b], forumHeads := [] }

/-- Move event B2 to `[5, 15)`, overlapping A2; no venue, so updateEvent runs
no conflict check at all. -/
def uC2 : UpdateEventInput :=
  { emptyUpdate with startTime := some 5, endTime := some 15 }

def evC2Bupd : Event :=
  { evC2B with startTime := 5, endTime := 15, resizeMode := some "cover" }

def dbC2bad : DB :=
  { dbC2 with events := [evC2A, evC2Bupd] }

/-- Like dbC2 but the second assignment is still pending: accepting it
succeeds (no overlap) and yields exactly dbC2. -/
def asgC2pend : StaffAssignment :=
  { id := 2, assignmentRole := "Staff in Charge"
    status := ApprovalStatus.pending, eventId := 2, userId := 5 }

def dbC2w : DB :=
  { events := [evC2A, evC2B], venues := [], users := [teacher5]
    assignments := [asgC2a, asgC2pend], forumHeads := [] }

def evC4A : Event :=
  { id := 1, name := "A4", description := none, startTime := 540, endTime := 600
    status := EventStatus.confirmed, bannerImage := none, resizeMode := none
    registrationLink := none, collegeId := 1, venueId := none
    organizerId := 9, forumId := 3 }

def evC4D : Event :=
  { id := 2, name := "D4", description := none, startTime := 570, endTime := 630
    status := EventStatus.confirmed, bannerImage := none, resizeMode := none
    registrationLink := none, collegeId := 1, venueId := none
    organizerId := 9, forumId := 3 }

def teach7 : User :=
  { id := 7, fullName := "X", role := Role.teacher
    approvalStatus := ApprovalStatus.approved, collegeId := 1 }

def asgC4 : StaffAssignment :=
  { id := 1, assignmentRole := "Staff in Charge"
    status := ApprovalStatus.approved, eventId := 1, userId := 7 }

/-- Teacher 7 is approved on event A4 `[09:00, 10:00)`; event D4 spans
`[09:30, 10:30)`. -/
def dbC4 : DB :=
  { events := [evC4A, evC4D], venues := [], users := [teach7]
    assignments := [asgC4], forumHeads := [] }

def uA5 : User :=
  { id := 1, fullName := "F1", role := Role.forumHead
    approvalStatus := ApprovalStatus.approved, collegeId := 1 }

def uT5 : User :=
  { id := 2, fullName := "Cand", role := Role.forumHead
    approvalStatus := ApprovalStatus.pending, collegeId := 1 }

def uT5ap : User :=
  { uT5 with approvalStatus := ApprovalStatus.approved }

/-- Approver 1 is a verified head of forums 10 and 20 (in that row order);
target 2 holds only a pending membership in forum 20 — the shared forum. -/
def dbC5 : DB :=
  { events := [], venues := [], users := [uA5, uT5], assignments := []
    forumHeads := [{ userId := 1, forumId := 10, isVerified := true },
                   { userId := 1, forumId := 20, isVerified := true },
                   { userId := 2, forumId := 20, isVerified := false }] }

def dbC5res : DB :=
  { dbC5 with
    users := [uA5, uT5ap]
    forumHeads := dbC5.forumHeads ++ [{ userId := 2, forumId := 10, isVerified := true }] }

def evC6 : Event :=
  { id := 1, name := "E6", description := none, startTime := 0, endTime := 60
    status := EventStatus.confirmed, bannerImage := none, resizeMode := none
    registrationLink := none, collegeId := 1, venueId := none
    organizerId := 9, forumId := 3 }

def teach8 : User :=
  { id := 8, fullName := "Y", role := Role.teacher
    approvalStatus := ApprovalStatus.approved, collegeId := 1 }

/-- An already-rejected assignment for (event 1, teacher 8). -/
def asgC6 : StaffAssignment :=
  { id := 3, assignmentRole := "Staff in Charge"
    status := ApprovalStatus.rejected, eventId := 1, userId := 8 }

def dbC6 : DB :=
  { events := [evC6], venues := [], users := [teach8]
    assignments := [asgC6], forumHeads := [] }

def evC7 : Event :=
  { id := 1, name := "E7", description := none, startTime := 0, endTime := 60
    status := EventStatus.confirmed, bannerImage := none, resizeMode := none
    registrationLink := none, collegeId := 1, venueId := some 5
    organizerId := 9, forumId := 3 }

def dbC7 : DB :=
  { events := [evC7], venues := [], users := [], assignments := [], forumHeads := [] }

/-- Re-submit event 1's own times at its own venue: without the
self-exclusion this would collide with the event's own row. -/
def uC7 : UpdateEventInput :=
  { emptyUpdate with startTime := some 0, endTime := some 60 }

/-- Venue 99 belongs to college 2; the caller's college is 1. -/
def dbC8 : DB :=
  { events := [], venues := [{ id := 99, name := "Hall", capacity := 100, collegeId := 2 }]
    users := [], assignments := [], forumHeads := [] }

def inC8 : CreateEventInput :=
  { name := "CrossTenant", description := none, startTime := 0, endTime := 60
    venueId := some 99, registrationLink := none, bannerImage := none
    resizeMode := none, forumId := 7 }

def evC8res : Event :=
  { id := 40, name := "CrossTenant", description := none, startTime := 0, endTime := 60
    status := EventStatus.confirmed, bannerImage := none, resizeMode := none
    registrationLink := none, collegeId := 1, venueId := some 99
    organizerId := 1, forumId := 7 }

def evC9 : Event :=
  { id := 1, name := "Old", description := some "d", startTime := 0, endTime := 60
    status := EventStatus.confirmed, bannerImage := some "b", resizeMode := some "contain"
    registrationLink := some "r", collegeId := 1, venueId := none
    organizerId := 9, forumId := 3 }

def dbC9 : DB :=
  { events := [evC9], venues := [], users := [], assignments := [], forumHeads := [] }

/-- An update supplying only the name; every other field is omitted. -/
def uC9 : UpdateEventInput :=
  { emptyUpdate with name := some "New" }

def evC9res : Event :=
  { evC9 with name := "New", resizeMode := some "cover" }

def dbC9res : DB :=
  { dbC9 with events := [evC9res] }

def uR10 : User :=
  { id := 1, fullName := "R", role := Role.forumHead
    approvalStatus := ApprovalStatus.approved, collegeId := 1 }

def uT10 : User :=
  { id := 2, fullName := "Tgt", role := Role.forumHead
    approvalStatus := ApprovalStatus.pending, collegeId := 1 }

def uT10rej : User :=
  { uT10 with approvalStatus := ApprovalStatus.rejected }

/-- Target 2 holds a pending membership in forum 10 (shared with rejecter 1)
and a verified membership in forum 30 (not shared). -/
def dbC10 : DB :=
  { events := [], venues := [], users := [uR10, uT10], assignments := []
    forumHeads := [{ userId := 1, forumId := 10, isVerified := true },
                   { userId := 2, forumId := 10, isVerified := false },
                   { userId := 2, forumId := 30, isVerified := true }] }

def dbC10res : DB :=
  { dbC10 with
    users := [uR10, uT10rej]
    forumHeads := [{ userId := 1, forumId := 10, isVerified := true }] }

/-! Helper lemmas. -/

/-- The SQL overlap condition of createEvent/updateEvent is exactly
closed-interval intersection `s ≤ ev.end ∧ ev.start ≤ e` for well-formed rows
and windows. -/
theorem overlapSqlB_iff_closed (s e : Int) (ev : Event)
    (hwf : ev.startTime ≤ ev.endTime) (hse : s ≤ e) :
    overlapSqlB s e ev = true ↔ (s ≤ ev.endTime ∧ ev.startTime ≤ e) := by
  simp only [overlapSqlB, Bool.or_eq_true, Bool.and_eq_true, decide_eq_true_eq,
    ge_iff_le]
  omega

theorem overlapHalfOpen_comm (s1 e1 s2 e2 : Int) :
    overlapHalfOpen s1 e1 s2 e2 = overlapHalfOpen s2 e2 s1 e1 := by
  simp only [overlapHalfOpen]
  rw [Bool.and_comm]

/-- Per-row form of the createEvent conflict predicate. -/
theorem createConflictPred_iff (s e : Int) (v : Nat) (ev : Event)
    (hwf : ev.startTime ≤ ev.endTime) (hse : s ≤ e) :
    ((ev.venueId == some v && overlapSqlB s e ev) = true) ↔
      (ev.venueId = some v ∧ s ≤ ev.endTime ∧ ev.startTime ≤ e) := by
  simp only [Bool.and_eq_true, beq_iff_eq]
  rw [overlapSqlB_iff_closed s e ev hwf hse]

/-- The teacher-availability scan finds nothing iff no approved assignment of
the teacher has an event overlapping the window. -/
theorem approvedConflict_eq_none_iff (db : DB) (s e : Int) (t : Nat) :
    approvedConflict db s e t = none ↔
      ∀ b ∈ db.assignments, b.userId = t → b.status = ApprovalStatus.approved →
        ∀ e2, evOf db.events b = some e2 →
          overlapHalfOpen s e e2.startTime e2.endTime = false := by
  unfold approvedConflict
  rw [List.find?_eq_none]
  constructor
  · intro h b hb hu hs e2 he2
    have hmem : e2 ∈ (db.assignments.filter
        (fun a => a.userId == t && a.status == ApprovalStatus.approved)).filterMap
          (fun a => evOf db.events a) := by
      exact List.mem_filterMap.mpr ⟨b, List.mem_filter.mpr ⟨hb, by simp [hu, hs]⟩, he2⟩
    have := h e2 hmem
    simpa using this
  · intro h e2 hmem
    obtain ⟨b, hbf, he2⟩ := List.mem_filterMap.mp hmem
    obtain ⟨hb, hcond⟩ := List.mem_filter.mp hbf
    simp only [Bool.and_eq_true, beq_iff_eq] at hcond
    simpa using h b hb hcond.1 hcond.2 e2 he2

/-- The teacher-availability scan finds something iff some approved assignment
of the teacher has an event overlapping the window. -/
theorem approvedConflict_isSome_iff (db : DB) (s e : Int) (t : Nat) :
    (approvedConflict db s e t).isSome = true ↔
      ∃ b ∈ db.assignments, b.userId = t ∧ b.status = ApprovalStatus.approved ∧
        ∃ e2, evOf db.events b = some e2 ∧
          overlapHalfOpen s e e2.startTime e2.endTime = true := by
  unfold approvedConflict
  rw [List.find?_isSome]
  constructor
  · intro ⟨e2, hmem, hp⟩
    obtain ⟨b, hbf, he2⟩ := List.mem_filterMap.mp hmem
    obtain ⟨hb, hcond⟩ := List.mem_filter.mp hbf
    simp only [Bool.and_eq_true, beq_iff_eq] at hcond
    exact ⟨b, hb, hcond.1, hcond.2, e2, he2, hp⟩
  · intro ⟨b, hb, hu, hs, e2, he2, hp⟩
    refine ⟨e2, List.mem_filterMap.mpr ⟨b, List.mem_filter.mpr ⟨hb, by simp [hu, hs]⟩, he2⟩, hp⟩

theorem evOf_status (evs : List Event) (a : StaffAssignment) (st : ApprovalStatus) :
    evOf evs { a with status := st } = evOf evs a := rfl

/-- Approving the row `aid` preserves the teacher-schedule invariant when the
newly approved assignment's event clashes with no approved commitment. -/
theorem schedOk_insert_approved (evs : List Event) (as : List StaffAssignment)
    (t aid : Nat) (a : StaffAssignment) (evA : Event)
    (hids : (as.map (fun x => x.id)).Nodup)
    (hok : schedOk evs as t)
    (hamem : a ∈ as) (haid : a.id = aid)
    (hev : evOf evs a = some evA)
    (hsafe : ∀ b ∈ as, b.userId = a.userId → b.status = ApprovalStatus.approved →
      ∀ e2, evOf evs b = some e2 →
        overlapHalfOpen evA.startTime evA.endTime e2.startTime e2.endTime = false) :
    schedOk evs (as.map (fun x =>
      if x.id == aid then { x with status := ApprovalStatus.approved } else x)) t := by
  intro a1 h1 a2 h2 hu1 hu2 hs1 hs2 hne
  obtain ⟨b1, hb1mem, hb1eq⟩ := List.mem_map.mp h1
  obtain ⟨b2, hb2mem, hb2eq⟩ := List.mem_map.mp h2
  subst hb1eq; subst hb2eq
  by_cases hc1 : (b1.id == aid) = true <;> by_cases hc2 : (b2.id == aid) = true
  · rw [if_pos hc1, if_pos hc2] at hne
    exact absurd ((eq_of_beq hc1).trans (eq_of_beq hc2).symm) hne
  · have hb1a : b1 = a :=
      List.inj_on_of_nodup_map hids hb1mem hamem (by rw [eq_of_beq hc1, haid])
    subst hb1a
    rw [if_pos hc1] at hu1
    rw [if_neg hc2] at hu2 hs2
    rw [if_pos hc1, if_neg hc2]
    unfold assignPairOk
    rw [show evOf evs ({ b1 with status := ApprovalStatus.approved } : StaffAssignment) =
      some evA from hev]
    cases he2 : evOf evs b2 with
    | none => rfl
    | some e2 =>
      have hua : b1.userId = t := hu1
      have hov : overlapHalfOpen evA.startTime evA.endTime e2.startTime e2.endTime = false := by
        apply hsafe b2 hb2mem (hu2.trans hua.symm) hs2 e2 he2
      simp [hov]
  · have hb2a : b2 = a :=
      List.inj_on_of_nodup_map hids hb2mem hamem (by rw [eq_of_beq hc2, haid])
    subst hb2a
    rw [if_pos hc2] at hu2
    rw [if_neg hc1] at hu1 hs1
    rw [if_neg hc1, if_pos hc2]
    unfold assignPairOk
    rw [show evOf evs ({ b2 with status := ApprovalStatus.approved } : StaffAssignment) =
      some evA from hev]
    cases he1 : evOf evs b1 with
    | none => rfl
    | some e1 =>
      have hua : b2.userId = t := hu2
      have hov : overlapHalfOpen evA.startTime evA.endTime e1.startTime e1.endTime = false := by
        apply hsafe b1 hb1mem (hu1.trans hua.symm) hs1 e1 he1
      rw [overlapHalfOpen_comm] at hov
      simp [hov]
  · rw [if_neg hc1] at hu1 hs1
    rw [if_neg hc2] at hu2 hs2
    rw [if_neg hc1, if_neg hc2] at hne ⊢
    exact hok b1 hb1mem b2 hb2mem hu1 hu2 hs1 hs2 hne

/-- Rejecting a row never creates an approved overlap. -/
theorem schedOk_map_reject (evs : List Event) (as : List StaffAssignment)
    (t aid : Nat) (hok : schedOk evs as t) :
    schedOk evs (as.map (fun x =>
      if x.id == aid then { x with status := ApprovalStatus.rejected } else x)) t := by
  intro a1 h1 a2 h2 hu1 hu2 hs1 hs2 hne
  obtain ⟨b1, hb1mem, hb1eq⟩ := List.mem_map.mp h1
  obtain ⟨b2, hb2mem, hb2eq⟩ := List.mem_map.mp h2
  subst hb1eq; subst hb2eq
  by_cases hc1 : (b1.id == aid) = true
  · rw [if_pos hc1] at hs1
    exact absurd hs1 (by simp)
  · by_cases hc2 : (b2.id == aid) = true
    · rw [if_pos hc2] at hs2
      exact absurd hs2 (by simp)
    · rw [if_neg hc1] at hu1 hs1
      rw [if_neg hc2] at hu2 hs2
      rw [if_neg hc1, if_neg hc2] at hne ⊢
      exact hok b1 hb1mem b2 hb2mem hu1 hu2 hs1 hs2 hne

/-- Deleting assignment rows never creates an approved overlap. -/
theorem schedOk_filter_assignments (evs : List Event) (as : List StaffAssignment)
    (t : Nat) (q : StaffAssignment → Bool) (hok : schedOk evs as t) :
    schedOk evs (as.filter q) t := by
  intro a1 h1 a2 h2
  exact hok a1 (List.mem_filter.mp h1).1 a2 (List.mem_filter.mp h2).1

/-- Appending a pending row never creates an approved overlap. -/
theorem schedOk_append_pending (evs : List Event) (as : List StaffAssignment)
    (t : Nat) (a : StaffAssignment) (ha : a.status = ApprovalStatus.pending)
    (hok : schedOk evs as t) :
    schedOk evs (as ++ [a]) t := by
  intro a1 h1 a2 h2 hu1 hu2 hs1 hs2 hne
  rcases List.mem_append.mp h1 with h1m | h1s
  · rcases List.mem_append.mp h2 with h2m | h2s
    · exact hok a1 h1m a2 h2m hu1 hu2 hs1 hs2 hne
    · exfalso
      have : a2 = a := by simpa using h2s
      rw [this, ha] at hs2
      exact absurd hs2 (by simp)
  · exfalso
    have : a1 = a := by simpa using h1s
    rw [this, ha] at hs1
    exact absurd hs1 (by simp)

/-- With unique event ids, an event found in a filtered table was the one found
in the full table. -/
theorem evOf_filter_eq_some (q : Event → Bool) (evs : List Event)
    (hn : (evs.map (fun ev => ev.id)).Nodup) (a : StaffAssignment) (e : Event)
    (h : evOf (evs.filter q) a = some e) : evOf evs a = some e := by
  have hmem := List.mem_of_find?_eq_some h
  have hpred := List.find?_some h
  have hmem2 : e ∈ evs := (List.mem_filter.mp hmem).1
  cases hfind : evOf evs a with
  | none =>
    exfalso
    rw [evOf, List.find?_eq_none] at hfind
    exact absurd hpred (by simpa using hfind e hmem2)
  | some e3 =>
    have hpe3 := List.find?_some hfind
    have hmeme3 := List.mem_of_find?_eq_some hfind
    have he3e : e3 = e := by
      apply List.inj_on_of_nodup_map hn hmeme3 hmem2
      have h1 : e3.id = a.eventId := by simpa using hpe3
      have h2 : e.id = a.eventId := by simpa using hpred
      rw [h1, h2]
    rw [he3e]

theorem assignPairOk_filter_events (q : Event → Bool) (evs : List Event)
    (hn : (evs.map (fun ev => ev.id)).Nodup) (a1 a2 : StaffAssignment)
    (h : assignPairOk evs a1 a2 = true) :
    assignPairOk (evs.filter q) a1 a2 = true := by
  unfold assignPairOk at h ⊢
  cases h1 : evOf (evs.filter q) a1 with
  | none => rfl
  | some e1 =>
    cases h2 : evOf (evs.filter q) a2 with
    | none => rfl
    | some e2 =>
      rw [evOf_filter_eq_some q evs hn a1 e1 h1, evOf_filter_eq_some q evs hn a2 e2 h2] at h
      exact h

/-- Removing events (with unique ids) never creates an approved overlap. -/
theorem schedOk_filter_events (evs : List Event) (as : List StaffAssignment)
    (t : Nat) (q : Event → Bool)
    (hn : (evs.map (fun ev => ev.id)).Nodup)
    (hok : schedOk evs as t) :
    schedOk (evs.filter q) as t := by
  intro a1 h1 a2 h2 hu1 hu2 hs1 hs2 hne
  exact assignPairOk_filter_events q evs hn a1 a2 (hok a1 h1 a2 h2 hu1 hu2 hs1 hs2 hne)

theorem acceptStaffRequest_preserves (db : DB) (t tid aid : Nat)
    (db' : DB) (r : StaffAssignment)
    (hids : (db.assignments.map (fun a => a.id)).Nodup)
    (hok : schedOk db.events db.assignments t)
    (hacc : acceptStaffRequest db tid aid = .ok (db', r)) :
    schedOk db'.events db'.assignments t := by
  unfold acceptStaffRequest at hacc
  cases hfind : db.assignments.find? (fun a =>
      a.id == aid && a.userId == tid && a.status == ApprovalStatus.pending) with
  | none => simp only [hfind] at hacc; exact absurd hacc (by simp)
  | some a =>
  simp only [hfind] at hacc
  cases hev : evOf db.events a with
  | none => simp only [hev] at hacc; exact absurd hacc (by simp)
  | some evA =>
  simp only [hev] at hacc
  cases hconf : approvedConflict db evA.startTime evA.endTime tid with
  | some cev => simp only [hconf] at hacc; exact absurd hacc (by simp)
  | none =>
  simp only [hconf, Except.ok.injEq, Prod.mk.injEq] at hacc
  obtain ⟨hdb, hr⟩ := hacc
  subst hdb
  have hamem := List.mem_of_find?_eq_some hfind
  have hapred := List.find?_some hfind
  simp only [Bool.and_eq_true, beq_iff_eq] at hapred
  obtain ⟨⟨haid, hauser⟩, hastat⟩ := hapred
  have hnoc := (approvedConflict_eq_none_iff db evA.startTime evA.endTime tid).mp hconf
  exact schedOk_insert_approved db.events db.assignments t aid a evA hids hok hamem haid hev
    (fun b hb hu hs e2 he2 => hnoc b hb (hu.trans (by rw [hauser])) hs e2 he2)

theorem requestStaffForEvent_preserves (db : DB) (t : Nat) (c : Option Nat)
    (eid tuid newId : Nat) (arole : Option String) (db' : DB) (r : StaffAssignment)
    (hok : schedOk db.events db.assignments t)
    (hreq : requestStaffForEvent db c eid tuid arole newId = .ok (db', r)) :
    schedOk db'.events db'.assignments t := by
  unfold requestStaffForEvent at hreq
  cases h1 : db.events.find? (fun ev => ev.id == eid) with
  | none => simp only [h1] at hreq; exact absurd hreq (by simp)
  | some event =>
  simp only [h1] at hreq
  cases h2 : db.users.find? (fun us => us.id == tuid) with
  | none => simp only [h2] at hreq; exact absurd hreq (by simp)
  | some teacherUser =>
  simp only [h2] at hreq
  by_cases h3 : some event.collegeId ≠ c ∨ some teacherUser.collegeId ≠ c
  · rw [if_pos h3] at hreq; exact absurd hreq (by simp)
  rw [if_neg h3] at hreq
  by_cases h4 : teacherUser.role ≠ Role.teacher
  · rw [if_pos h4] at hreq; exact absurd hreq (by simp)
  rw [if_neg h4] at hreq
  by_cases h5 : (db.assignments.find? (fun a =>
      a.eventId == eid && a.userId == tuid)).isSome = true
  · rw [if_pos h5] at hreq; exact absurd hreq (by simp)
  rw [if_neg h5] at hreq
  cases h6 : approvedConflict db event.startTime event.endTime tuid with
  | some cev => simp only [h6] at hreq; exact absurd hreq (by simp)
  | none =>
  simp only [h6, Except.ok.injEq, Prod.mk.injEq] at hreq
  obtain ⟨hdb, hr⟩ := hreq
  subst hdb
  exact schedOk_append_pending db.events db.assignments t _ rfl hok

theorem cancelStaffRequest_preserves (db : DB) (t tid aid : Nat) (db' : DB)
    (hok : schedOk db.events db.assignments t)
    (hcan : cancelStaffRequest db tid aid = .ok db') :
    schedOk db'.events db'.assignments t := by
  unfold cancelStaffRequest at hcan
  cases hfind : db.assignments.find? (fun a =>
      a.id == aid && a.userId == tid && a.status == ApprovalStatus.approved) with
  | none => simp only [hfind] at hcan; exact absurd hcan (by simp)
  | some a =>
  simp only [hfind, Except.ok.injEq] at hcan
  subst hcan
  exact schedOk_filter_assignments db.events db.assignments t _ hok

theorem rejectStaffRequest_preserves (db : DB) (t tid aid : Nat) (db' : DB)
    (r : StaffAssignment)
    (hok : schedOk db.events db.assignments t)
    (hrej : rejectStaffRequest db tid aid = .ok (db', r)) :
    schedOk db'.events db'.assignments t := by
  unfold rejectStaffRequest at hrej
  cases hfind : db.assignments.find? (fun a =>
      a.id == aid && a.userId == tid && a.status == ApprovalStatus.pending) with
  | none => simp only [hfind] at hrej; exact absurd hrej (by simp)
  | some a =>
  simp only [hfind, Except.ok.injEq, Prod.mk.injEq] at hrej
  obtain ⟨hdb, hr⟩ := hrej
  subst hdb
  exact schedOk_map_reject db.events db.assignments t aid hok

theorem deleteEvent_preserves (db : DB) (t uid eid : Nat) (role : Role)
    (c : Option Nat) (db' : DB)
    (hevids : (db.events.map (fun ev => ev.id)).Nodup)
    (hok : schedOk db.events db.assignments t)
    (hdel : deleteEvent db uid role c eid = .ok db') :
    schedOk db'.events db'.assignments t := by
  unfold deleteEvent at hdel
  cases c with
  | none => exact absurd hdel (by simp)
  | some cv =>
  cases hfind : db.events.find? (fun ev => ev.id == eid && ev.collegeId == cv) with
  | none => simp only [hfind] at hdel; exact absurd hdel (by simp)
  | some existingEvent =>
  simp only [hfind] at hdel
  by_cases hauth : existingEvent.organizerId ≠ uid ∧ role ≠ Role.collegeAdmin
  · rw [if_pos hauth] at hdel; exact absurd hdel (by simp)
  rw [if_neg hauth] at hdel
  simp only [Except.ok.injEq] at hdel
  subst hdel
  exact schedOk_filter_events db.events _ t _ hevids
    (schedOk_filter_assignments db.events db.assignments t _ hok)

/-- Characterization of createEvent's conflict flag: with a venue requested
and well-formed rows, it is set iff some event at that venue intersects the
window under closed-interval semantics. -/
theorem createHasConflict_iff (db : DB) (input : CreateEventInput) (v : Nat)
    (hv : input.venueId = some v)
    (hwf : ∀ ev ∈ db.events, ev.startTime ≤ ev.endTime)
    (hse : input.startTime ≤ input.endTime) :
    createHasConflict db input = true ↔
      ∃ ev ∈ db.events, ev.venueId = some v ∧
        input.startTime ≤ ev.endTime ∧ ev.startTime ≤ input.endTime := by
  unfold createHasConflict
  rw [hv, List.find?_isSome]
  constructor
  · intro ⟨ev, hmem, hpred⟩
    exact ⟨ev, hmem, (createConflictPred_iff input.startTime input.endTime v ev
      (hwf ev hmem) hse).mp hpred⟩
  · intro ⟨ev, hmem, hall⟩
    exact ⟨ev, hmem, (createConflictPred_iff input.startTime input.endTime v ev
      (hwf ev hmem) hse).mpr hall⟩

/-- Claim C1 (counterexample): event A spans `[10:00, 11:00)` at venue 1;
creating adjacent event C `[11:00, 12:00)` at venue 1 fails with VenueConflict
even though the intervals do not overlap under half-open semantics, refuting
the claimed success of adjacent creations. -/
theorem c1_counterexample :
    createEvent dbC1 9 (some 1) inC1adj 2 = .error .venueConflict ∧
      overlapHalfOpen 660 720 600 660 = false :=
  ⟨rfl, by decide⟩

/-- Claim C1 (amended): for a candidate window with start < end at venue v,
createEvent fails with VenueConflict iff the window intersects, under
closed-interval semantics (`s1 ≤ e2 ∧ s2 ≤ e1` — adjacent events conflict),
the interval of at least one existing event (of any status) at v; failure
aborts the transaction before any insert, so no row is written. -/
theorem c1_createEvent_venueConflict_iff (db : DB) (organizerId : Nat)
    (collegeId : Option Nat) (input : CreateEventInput) (v newId : Nat)
    (hv : input.venueId = some v) (hname : input.name ≠ "")
    (hlt : input.startTime < input.endTime)
    (hwf : ∀ ev ∈ db.events, ev.startTime ≤ ev.endTime) :
    createEvent db organizerId collegeId input newId = .error .venueConflict ↔
      ∃ ev ∈ db.events, ev.venueId = some v ∧
        input.startTime ≤ ev.endTime ∧ ev.startTime ≤ input.endTime := by
  have hse : input.startTime ≤ input.endTime := le_of_lt hlt
  have hnot : ¬ (input.startTime ≥ input.endTime) := by omega
  unfold createEvent
  rw [if_neg hname, if_neg hnot]
  by_cases hc : createHasConflict db input = true
  · rw [if_pos hc]
    exact iff_of_true rfl ((createHasConflict_iff db input v hv hwf hse).mp hc)
  · rw [if_neg hc]
    refine iff_of_false ?_ (fun hr => hc ((createHasConflict_iff db input v hv hwf hse).mpr hr))
    cases collegeId with
    | none => simp
    | some c => simp

/-- Witness for C1: event B `[10:30, 11:30)` at venue 1 triggers the
VenueConflict characterization against event A. -/
theorem c1_witness :
    ∃ ev ∈ dbC1.events, ev.venueId = some 1 ∧
      inC1ov.startTime ≤ ev.endTime ∧ ev.startTime ≤ inC1ov.endTime :=
  (c1_createEvent_venueConflict_iff dbC1 9 (some 1) inC1ov 1 2 rfl (by decide)
    (by decide) (by decide)).mp rfl

/-- Claim C2 (counterexample): teacher 5 holds approved assignments to the
disjoint events A2 `[0,10)` and B2 `[20,30)`; updateEvent moves B2 to `[5,15)`
(no venue, so no conflict check of any kind runs) and succeeds, leaving the
teacher's approved assignments overlapping — the claimed invariant is not
preserved by updateEvent. -/
theorem c2_counterexample :
    schedOk dbC2.events dbC2.assignments 5 ∧
      updateEvent dbC2 Role.forumHead (some 1) 2 uC2 = .ok (dbC2bad, evC2Bupd) ∧
      ¬ schedOk dbC2bad.events dbC2bad.assignments 5 :=
  ⟨by decide, rfl, by decide⟩

/-- Claim C2 (amended): with unique row ids the pairwise non-overlap invariant
over a teacher's approved assignments is preserved by acceptStaffRequest,
requestStaffForEvent, cancelStaffRequest, rejectStaffRequest and deleteEvent;
updateEvent is excluded, since it can change an event's interval without
re-checking staff schedules (see the counterexample). -/
theorem c2_staffOps_preserve_schedOk (db : DB) (t : Nat)
    (hids : (db.assignments.map (fun a => a.id)).Nodup)
    (hevids : (db.events.map (fun ev => ev.id)).Nodup)
    (hok : schedOk db.events db.assignments t) :
    (∀ tid aid db' r, acceptStaffRequest db tid aid = .ok (db', r) →
       schedOk db'.events db'.assignments t) ∧
    (∀ c eid tuid arole newId db' r,
       requestStaffForEvent db c eid tuid arole newId = .ok (db', r) →
       schedOk db'.events db'.assignments t) ∧
    (∀ tid aid db', cancelStaffRequest db tid aid = .ok db' →
       schedOk db'.events db'.assignments t) ∧
    (∀ tid aid db' r, rejectStaffRequest db tid aid = .ok (db', r) →
       schedOk db'.events db'.assignments t) ∧
    (∀ uid role c eid db', deleteEvent db uid role c eid = .ok db' →
       schedOk db'.events db'.assignments t) := by
  refine ⟨?_, ?_, ?_, ?_, ?_⟩
  · intro tid aid db' r h
    exact acceptStaffRequest_preserves db t tid aid db' r hids hok h
  · intro c eid tuid arole newId db' r h
    exact requestStaffForEvent_preserves db t c eid tuid newId arole db' r hok h
  · intro tid aid db' h
    exact cancelStaffRequest_preserves db t tid aid db' hok h
  · intro tid aid db' r h
    exact rejectStaffRequest_preserves db t tid aid db' r hok h
  · intro uid role c eid db' h
    exact deleteEvent_preserves db t uid eid role c db' hevids hok h

/-- Witness for C2: in dbC2w teacher 5's pending request for event B2 is
accepted (no overlap with the approved A2 slot), producing dbC2, whose approved
schedule satisfies the invariant. -/
theorem c2_witness : schedOk dbC2.events dbC2.assignments 5 :=
  (c2_staffOps_preserve_schedOk dbC2w 5 (by decide) (by decide) (by decide)).1
    5 2 dbC2 asgC2b rfl

/-- Claim C3 (confirmed): for a pending assignment A of teacher T whose event
is evA, acceptStaffRequest fails with ScheduleConflict when evA overlaps the
event of some currently approved assignment of T (the thrown error aborts the
transaction, so A remains pending — the model returns no successor state), and
with no such overlap it transitions exactly row A to approved. -/
theorem c3_acceptStaffRequest_spec (db : DB) (tid aid : Nat)
    (a : StaffAssignment) (evA : Event)
    (hfind : db.assignments.find? (fun x =>
      x.id == aid && x.userId == tid && x.status == ApprovalStatus.pending) = some a)
    (hev : evOf db.events a = some evA) :
    ((∃ b ∈ db.assignments, b.userId = tid ∧ b.status = ApprovalStatus.approved ∧
        ∃ e2, evOf db.events b = some e2 ∧
          overlapHalfOpen evA.startTime evA.endTime e2.startTime e2.endTime = true) →
      ∃ nm, acceptStaffRequest db tid aid = .error (.scheduleConflict nm)) ∧
    ((∀ b ∈ db.assignments, b.userId = tid → b.status = ApprovalStatus.approved →
        ∀ e2, evOf db.events b = some e2 →
          overlapHalfOpen evA.startTime evA.endTime e2.startTime e2.endTime = false) →
      acceptStaffRequest db tid aid =
        .ok ({ db with assignments := db.assignments.map (fun x =>
                 if x.id == aid then { x with status := ApprovalStatus.approved } else x) },
             { a with status := ApprovalStatus.approved })) := by
  constructor
  · intro hex
    have hsome : (approvedConflict db evA.startTime evA.endTime tid).isSome = true :=
      (approvedConflict_isSome_iff db evA.startTime evA.endTime tid).mpr hex
    cases hc : approvedConflict db evA.startTime evA.endTime tid with
    | none => rw [hc] at hsome; simp at hsome
    | some cev =>
      refine ⟨cev.name, ?_⟩
      unfold acceptStaffRequest
      simp only [hfind, hev, hc]
  · intro hall
    have hconf : approvedConflict db evA.startTime evA.endTime tid = none :=
      (approvedConflict_eq_none_iff db evA.startTime evA.endTime tid).mpr hall
    have haid : (a.id == aid) = true := by
      have h := List.find?_some hfind
      simp only [Bool.and_eq_true] at h
      exact h.1.1
    unfold acceptStaffRequest
    simp only [hfind, hev, hconf]
    rw [if_pos haid]

/-- Witness for C3: in dbC2w teacher 5 accepts the pending assignment to
event B2, which conflicts with nothing, and the row becomes approved. -/
theorem c3_witness : acceptStaffRequest dbC2w 5 2 = .ok (dbC2, asgC2b) :=
  Eq.trans ((c3_acceptStaffRequest_spec dbC2w 5 2 asgC2pend evC2B rfl rfl).2
    (by decide)) (by rfl)

/-- Claim C4 (counterexample): teacher 7 holds an approved assignment to event
A4 `[09:00, 10:00)`; a forum head's request for event D4 `[09:30, 10:30)` does
not succeed — requestStaffForEvent runs the availability check at request time
and fails with ScheduleConflict naming A4, refuting the claim that the request
stage always allows conflicting pending assignments. -/
theorem c4_counterexample :
    requestStaffForEvent dbC4 (some 1) 2 7 none 50 =
      .error (.scheduleConflict "A4") := rfl

/-- Claim C4 (amended): when the validations pass (event and teacher found, in
the caller's tenant, target is a teacher, no existing assignment for the
pair), requestStaffForEvent fails with ScheduleConflict exactly when the
candidate event's window half-openly overlaps the event of one of the
teacher's approved assignments — the conflict is enforced at request time as
well as at accept time — and otherwise appends the new pending row. -/
theorem c4_requestStaff_conflict_iff (db : DB) (c : Option Nat)
    (eid tuid newId : Nat) (arole : Option String) (ev : Event) (teacher : User)
    (hev : db.events.find? (fun x => x.id == eid) = some ev)
    (ht : db.users.find? (fun x => x.id == tuid) = some teacher)
    (hc1 : some ev.collegeId = c) (hc2 : some teacher.collegeId = c)
    (hrole : teacher.role = Role.teacher)
    (hdup : ∀ a ∈ db.assignments, ¬ (a.eventId = eid ∧ a.userId = tuid)) :
    ((∃ nm, requestStaffForEvent db c eid tuid arole newId =
        .error (.scheduleConflict nm)) ↔
      ∃ b ∈ db.assignments, b.userId = tuid ∧ b.status = ApprovalStatus.approved ∧
        ∃ e2, evOf db.events b = some e2 ∧
          overlapHalfOpen ev.startTime ev.endTime e2.startTime e2.endTime = true) ∧
    ((∀ b ∈ db.assignments, b.userId = tuid → b.status = ApprovalStatus.approved →
        ∀ e2, evOf db.events b = some e2 →
          overlapHalfOpen ev.startTime ev.endTime e2.startTime e2.endTime = false) →
      requestStaffForEvent db c eid tuid arole newId =
        .ok ({ db with assignments := db.assignments ++
                 [{ id := newId, assignmentRole := jsOrStr arole "Staff in Charge",
                    status := ApprovalStatus.pending, eventId := eid, userId := tuid }] },
             { id := newId, assignmentRole := jsOrStr arole "Staff in Charge",
               status := ApprovalStatus.pending, eventId := eid, userId := tuid })) := by
  have hten : ¬ (some ev.collegeId ≠ c ∨ some teacher.collegeId ≠ c) := by
    push_neg
    exact ⟨hc1, hc2⟩
  have hrole2 : ¬ (teacher.role ≠ Role.teacher) := by simp [hrole]
  have hdupb : ¬ ((db.assignments.find? (fun a =>
      a.eventId == eid && a.userId == tuid)).isSome = true) := by
    intro hsome
    obtain ⟨x, hx, hpred⟩ := List.find?_isSome.mp hsome
    simp only [Bool.and_eq_true, beq_iff_eq] at hpred
    exact hdup x hx ⟨hpred.1, hpred.2⟩
  have hred : requestStaffForEvent db c eid tuid arole newId =
      (match approvedConflict db ev.startTime ev.endTime tuid with
       | some conflicting => .error (.scheduleConflict conflicting.name)
       | none =>
         .ok ({ db with assignments := db.assignments ++
                  [{ id := newId, assignmentRole := jsOrStr arole "Staff in Charge",
                     status := ApprovalStatus.pending, eventId := eid, userId := tuid }] },
              { id := newId, assignmentRole := jsOrStr arole "Staff in Charge",
                status := ApprovalStatus.pending, eventId := eid, userId := tuid })) := by
    unfold requestStaffForEvent
    simp only [hev, ht]
    rw [if_neg hten, if_neg hrole2, if_neg hdupb]
  constructor
  · rw [hred]
    cases hc : approvedConflict db ev.startTime ev.endTime tuid with
    | some cev =>
      refine iff_of_true ⟨cev.name, rfl⟩ ?_
      exact (approvedConflict_isSome_iff db ev.startTime ev.endTime tuid).mp (by rw [hc]; rfl)
    | none =>
      refine iff_of_false ?_ ?_
      · intro ⟨nm, habs⟩
        simp at habs
      · intro hexi
        obtain ⟨b, hb, hu, hs, e2, he2, hov⟩ := hexi
        have hno := (approvedConflict_eq_none_iff db ev.startTime ev.endTime tuid).mp hc
          b hb hu hs e2 he2
        rw [hov] at hno
        exact absurd hno (by simp)
  · intro hall
    have hconf : approvedConflict db ev.startTime ev.endTime tuid = none :=
      (approvedConflict_eq_none_iff db ev.startTime ev.endTime tuid).mpr hall
    rw [hred, hconf]

/-- Witness for C4: in dbC4 the conflict characterization is inhabited —
teacher 7's approved A4 assignment overlaps event D4's window. -/
theorem c4_witness :
    ∃ b ∈ dbC4.assignments, b.userId = 7 ∧ b.status = ApprovalStatus.approved ∧
      ∃ e2, evOf dbC4.events b = some e2 ∧
        overlapHalfOpen evC4D.startTime evC4D.endTime e2.startTime e2.endTime = true :=
  ((c4_requestStaff_conflict_iff dbC4 (some 1) 2 7 50 none evC4D teach7 rfl rfl
    rfl rfl rfl (by decide)).1).mp ⟨"A4", rfl⟩

/-- Claim C5 (counterexample): approver 1 (verified head of forums 10 and 20,
in that row order) approves target 2, whose only membership is in the shared
forum 20.  Approval succeeds, but the verified row inserted for the target is
for forum 10 — the approver's first-listed forum — not the shared forum 20,
and forum 10 is not shared with the target. -/
theorem c5_counterexample :
    approveForumHead dbC5 1 Role.forumHead 2 = .ok (dbC5res, uT5ap) ∧
      ({ userId := 2, forumId := 10, isVerified := true } : ForumHead) ∈ dbC5res.forumHeads ∧
      ({ userId := 2, forumId := 20, isVerified := true } : ForumHead) ∉ dbC5res.forumHeads ∧
      ¬ ∃ fh ∈ dbC5.forumHeads, fh.userId = 2 ∧ fh.forumId = 10 :=
  ⟨rfl, by decide, by decide, by decide⟩

/-- Claim C5 (amended): for an approved forum-head approver and a pending
forum-head target in the same tenant, approveForumHead fails with Forbidden
exactly when the approver's and target's forum-membership row sets are
disjoint on forumId (a genuine set-intersection check); when a shared forum
exists the approval succeeds, sets the target's approvalStatus to approved,
and inserts a verified forum_heads row for the target in the approver's
FIRST-listed forum — which need not be a forum shared with the target. -/
theorem c5_approveForumHead_spec (db : DB) (approverId targetUserId : Nat)
    (approver target : User)
    (hap : db.users.find? (fun x => x.id == approverId) = some approver)
    (htg : db.users.find? (fun x => x.id == targetUserId) = some target)
    (haps : approver.approvalStatus = ApprovalStatus.approved)
    (htgs : target.approvalStatus = ApprovalStatus.pending)
    (htgr : target.role = Role.forumHead)
    (hcol : approver.collegeId = target.collegeId) :
    ((¬ ∃ fh ∈ db.forumHeads, fh.userId = targetUserId ∧
        ∃ fh2 ∈ db.forumHeads, fh2.userId = approverId ∧ fh2.forumId = fh.forumId) →
      approveForumHead db approverId Role.forumHead targetUserId = .error .forbidden) ∧
    (∀ f rest, db.forumHeads.filter (fun x => x.userId == approverId) = f :: rest →
      (∃ fh ∈ db.forumHeads, fh.userId = targetUserId ∧
        ∃ fh2 ∈ db.forumHeads, fh2.userId = approverId ∧ fh2.forumId = fh.forumId) →
      approveForumHead db approverId Role.forumHead targetUserId =
        .ok ({ db with
               users := db.users.map (fun us =>
                 if us.id == targetUserId then
                   { us with approvalStatus := ApprovalStatus.approved } else us)
               forumHeads := db.forumHeads ++
                 [{ userId := targetUserId, forumId := f.forumId, isVerified := true }] },
             { target with approvalStatus := ApprovalStatus.approved })) := by
  have hany : ((db.forumHeads.filter (fun x => x.userId == targetUserId)).any (fun a =>
      (db.forumHeads.filter (fun x => x.userId == approverId)).any
        (fun b => b.forumId == a.forumId)) = true) ↔
      ∃ fh ∈ db.forumHeads, fh.userId = targetUserId ∧
        ∃ fh2 ∈ db.forumHeads, fh2.userId = approverId ∧ fh2.forumId = fh.forumId := by
    simp only [List.any_eq_true, List.mem_filter, beq_iff_eq]
    constructor
    · intro ⟨a, ⟨ha, hau⟩, b, ⟨hb, hbu⟩, hfid⟩
      exact ⟨a, ha, hau, b, hb, hbu, hfid⟩
    · intro ⟨a, ha, hau, b, hb, hbu, hfid⟩
      exact ⟨a, ⟨ha, hau⟩, b, ⟨hb, hbu⟩, hfid⟩
  have htgid : (target.id == targetUserId) = true := by
    simpa using List.find?_some htg
  have h1 : ¬ Role.forumHead ≠ Role.forumHead := by simp
  have h2 : ¬ approver.approvalStatus ≠ ApprovalStatus.approved := by simp [haps]
  have h3 : ¬ (target.approvalStatus ≠ ApprovalStatus.pending ∨
      target.role ≠ Role.forumHead) := by
    push_neg
    exact ⟨htgs, htgr⟩
  have h4 : ¬ approver.collegeId ≠ target.collegeId := by simp [hcol]
  constructor
  · intro hnot
    have hcond : ¬ ((db.forumHeads.filter (fun x => x.userId == targetUserId)).any (fun a =>
        (db.forumHeads.filter (fun x => x.userId == approverId)).any
          (fun b => b.forumId == a.forumId)) = true) := fun h => hnot (hany.mp h)
    unfold approveForumHead
    rw [if_neg h1]
    simp only [hap, htg]
    rw [if_neg h2, if_neg h3, if_neg h4, if_pos hcond]
  · intro f rest hfilter hex
    have hcond : ¬ ¬ ((db.forumHeads.filter (fun x => x.userId == targetUserId)).any (fun a =>
        (db.forumHeads.filter (fun x => x.userId == approverId)).any
          (fun b => b.forumId == a.forumId)) = true) := not_not_intro (hany.mpr hex)
    unfold approveForumHead
    rw [if_neg h1]
    simp only [hap, htg]
    rw [if_neg h2, if_neg h3, if_neg h4, if_neg hcond, hfilter]
    simp only []
    rw [if_pos htgid]

/-- Witness for C5: in dbC5 the shared forum exists, so approval succeeds and
the inserted verified row is for forum 10, the approver's first-listed row. -/
theorem c5_witness : approveForumHead dbC5 1 Role.forumHead 2 = .ok (dbC5res, uT5ap) :=
  Eq.trans ((c5_approveForumHead_spec dbC5 1 2 uA5 uT5 rfl rfl rfl rfl rfl rfl).2
    { userId := 1, forumId := 10, isVerified := true }
    [{ userId := 1, forumId := 20, isVerified := true }] (by decide) (by decide))
    (by rfl)

/-- Claim C6 (confirmed): when an assignment row for (event, teacher) exists in
any status, a further requestStaffForEvent for the same pair fails with
DuplicateRequest; the thrown error aborts the transaction, so nothing is
inserted. -/
theorem c6_requestStaff_duplicate (db : DB) (c : Option Nat)
    (eid tuid newId : Nat) (arole : Option String) (ev : Event) (teacher : User)
    (a : StaffAssignment)
    (hev : db.events.find? (fun x => x.id == eid) = some ev)
    (ht : db.users.find? (fun x => x.id == tuid) = some teacher)
    (hc1 : some ev.collegeId = c) (hc2 : some teacher.collegeId = c)
    (hrole : teacher.role = Role.teacher)
    (ha : a ∈ db.assignments) (hae : a.eventId = eid) (hau : a.userId = tuid) :
    requestStaffForEvent db c eid tuid arole newId = .error .duplicateRequest := by
  have hten : ¬ (some ev.collegeId ≠ c ∨ some teacher.collegeId ≠ c) := by
    push_neg
    exact ⟨hc1, hc2⟩
  have hrole2 : ¬ (teacher.role ≠ Role.teacher) := by simp [hrole]
  have hdupb : (db.assignments.find? (fun x =>
      x.eventId == eid && x.userId == tuid)).isSome = true :=
    List.find?_isSome.mpr ⟨a, ha, by simp [hae, hau]⟩
  unfold requestStaffForEvent
  simp only [hev, ht]
  rw [if_neg hten, if_neg hrole2, if_pos hdupb]

/-- Witness for C6: the (event 1, teacher 8) pair already has a REJECTED row,
and a new request still fails with DuplicateRequest. -/
theorem c6_witness :
    requestStaffForEvent dbC6 (some 1) 1 8 none 9 = .error .duplicateRequest :=
  c6_requestStaff_duplicate dbC6 (some 1) 1 8 9 none evC6 teach8 asgC6
    rfl rfl rfl rfl rfl (by decide) rfl rfl

/-- Claim C7 (confirmed): updateEvent's conflict re-check is evaluated only
over events whose id differs from the updated event's id, so an event never
conflicts with its own prior row: VenueConflict arises iff the check is
triggered and some OTHER event at the effective venue satisfies the SQL
overlap condition. -/
theorem c7_updateEvent_excludes_self (db : DB) (c' eid : Nat)
    (u : UpdateEventInput) (existing : Event) (v : Nat)
    (hfind : db.events.find? (fun ev => ev.id == eid && ev.collegeId == c') = some existing)
    (hv : effVenue u existing = some v) :
    updateEvent db Role.forumHead (some c') eid u = .error .venueConflict ↔
      (updTriggersCheck u = true ∧ ∃ ev ∈ db.events, ev.id ≠ eid ∧
        ev.venueId = some v ∧
        overlapSqlB (effStart u existing) (effEnd u existing) ev = true) := by
  have hconf : updateHasConflict db eid u existing = true ↔
      (updTriggersCheck u = true ∧ ∃ ev ∈ db.events, ev.id ≠ eid ∧
        ev.venueId = some v ∧
        overlapSqlB (effStart u existing) (effEnd u existing) ev = true) := by
    unfold updateHasConflict
    rw [hv]
    simp only [Bool.and_eq_true, List.find?_isSome]
    constructor
    · intro ⟨htr, ev, hmem, hpred⟩
      simp only [Bool.and_eq_true, beq_iff_eq, bne_iff_ne] at hpred
      exact ⟨htr, ev, hmem, hpred.1.2, hpred.1.1, hpred.2⟩
    · intro ⟨htr, ev, hmem, hne, hvv, hov⟩
      refine ⟨htr, ev, hmem, ?_⟩
      simp only [Bool.and_eq_true, beq_iff_eq, bne_iff_ne]
      exact ⟨⟨hvv, hne⟩, hov⟩
  unfold updateEvent
  simp only [hfind]
  rw [if_neg (show ¬ Role.forumHead ≠ Role.forumHead by simp)]
  by_cases hc : updateHasConflict db eid u existing = true
  · rw [if_pos hc]
    exact iff_of_true rfl (hconf.mp hc)
  · rw [if_neg hc]
    exact iff_of_false (by simp) (fun hr => hc (hconf.mpr hr))

/-- Witness for C7: re-submitting event 1's own interval at its own venue
(dbC7 holds only that event) does not raise VenueConflict, although the
event's own row satisfies the overlap condition. -/
theorem c7_witness :
    updateEvent dbC7 Role.forumHead (some 1) 1 uC7 ≠ .error .venueConflict :=
  fun h => absurd ((c7_updateEvent_excludes_self dbC7 1 1 uC7 evC7 5 rfl rfl).mp h)
    (by decide)

/-- Claim C8 (code bug evidence): createEvent performs no tenant validation of
the requested venue (or forum): with caller college 1 and venue 99 belonging
to college 2, the event is inserted referencing the foreign venue.  The claim
that every state-changing operation validates tenant scoping before mutating —
and that createEvent never writes a row referencing another tenant's venue or
forum — is violated by the code. -/
theorem c8_createEvent_books_foreign_venue :
    createEvent dbC8 1 (some 1) inC8 40 = .ok ({ dbC8 with events := [evC8res] }, evC8res) ∧
      evC8res.venueId = some 99 ∧ evC8res.collegeId = 1 ∧
      ∀ venue ∈ dbC8.venues, venue.id = 99 ∧ venue.collegeId = 2 :=
  ⟨rfl, rfl, rfl, by decide⟩

/-- Claim C9 (counterexample): event 1 has resizeMode "contain"; an update
supplying only the name succeeds and silently rewrites resizeMode to "cover" —
an omitted field that is NOT left unchanged. -/
theorem c9_counterexample :
    updateEvent dbC9 Role.forumHead (some 1) 1 uC9 = .ok (dbC9res, evC9res) ∧
      uC9.resizeMode = none ∧ evC9.resizeMode = some "contain" ∧
      evC9res.resizeMode = some "cover" :=
  ⟨rfl, rfl, rfl, rfl⟩

/-- Claim C9 (amended): on a successful updateEvent, every omitted field among
name, description, startTime, endTime, venueId, registrationLink and
bannerImage is left unchanged, and time fields are reparsed only when
supplied; resizeMode is the exception — it is always rewritten to
`updateData.resizeMode || "cover"`, so an omitted resizeMode becomes "cover". -/
theorem c9_updateEvent_frame (db : DB) (c' eid : Nat) (u : UpdateEventInput)
    (existing : Event) (db' : DB) (ev' : Event)
    (hfind : db.events.find? (fun ev => ev.id == eid && ev.collegeId == c') = some existing)
    (hok : updateEvent db Role.forumHead (some c') eid u = .ok (db', ev')) :
    (u.name = none → ev'.name = existing.name) ∧
    (u.description = none → ev'.description = existing.description) ∧
    (u.startTime = none → ev'.startTime = existing.startTime) ∧
    (u.endTime = none → ev'.endTime = existing.endTime) ∧
    (u.venueId = none → ev'.venueId = existing.venueId) ∧
    (u.registrationLink = none → ev'.registrationLink = existing.registrationLink) ∧
    (u.bannerImage = none → ev'.bannerImage = existing.bannerImage) ∧
    (u.startTime.isSome → ev'.startTime = effStart u existing) ∧
    (u.endTime.isSome → ev'.endTime = effEnd u existing) ∧
    ev'.resizeMode = some (jsOrStr2 u.resizeMode "cover") := by
  unfold updateEvent at hok
  simp only [hfind] at hok
  rw [if_neg (show ¬ Role.forumHead ≠ Role.forumHead by simp)] at hok
  by_cases hc : updateHasConflict db eid u existing = true
  · rw [if_pos hc] at hok
    exact absurd hok (by simp)
  rw [if_neg hc] at hok
  simp only [Except.ok.injEq, Prod.mk.injEq] at hok
  obtain ⟨hdb, hev⟩ := hok
  subst hev
  refine ⟨?_, ?_, ?_, ?_, ?_, ?_, ?_, ?_, ?_, ?_⟩ <;>
    first
      | (intro h; simp [applyEventUpdate, effStart, effEnd, h])
      | simp [applyEventUpdate]

/-- Witness for C9: applying the frame theorem to the dbC9 update — all
omitted fields except resizeMode keep their prior value, and resizeMode is
rewritten to "cover". -/
theorem c9_witness :
    (uC9.name = none → evC9res.name = evC9.name) ∧
    (uC9.description = none → evC9res.description = evC9.description) ∧
    (uC9.startTime = none → evC9res.startTime = evC9.startTime) ∧
    (uC9.endTime = none → evC9res.endTime = evC9.endTime) ∧
    (uC9.venueId = none → evC9res.venueId = evC9.venueId) ∧
    (uC9.registrationLink = none → evC9res.registrationLink = evC9.registrationLink) ∧
    (uC9.bannerImage = none → evC9res.bannerImage = evC9.bannerImage) ∧
    (uC9.startTime.isSome → evC9res.startTime = effStart uC9 evC9) ∧
    (uC9.endTime.isSome → evC9res.endTime = effEnd uC9 evC9) ∧
    evC9res.resizeMode = some (jsOrStr2 uC9.resizeMode "cover") :=
  c9_updateEvent_frame dbC9 1 1 uC9 evC9 dbC9res evC9res rfl rfl

/-- Claim C10 (confirmed): a successful rejectForumHead deletes every
forum_heads row of the target user — verified rows in unshared forums
included — so the target retains no forum memberships at all. -/
theorem c10_rejectForumHead_removes_memberships (db : DB) (rid tid : Nat)
    (db' : DB) (u' : User)
    (hok : rejectForumHead db rid Role.forumHead tid = .ok (db', u')) :
    db'.forumHeads = db.forumHeads.filter (fun fh => fh.userId != tid) ∧
    ∀ fh ∈ db'.forumHeads, fh.userId ≠ tid := by
  unfold rejectForumHead at hok
  rw [if_neg (show ¬ Role.forumHead ≠ Role.forumHead by simp)] at hok
  cases h1 : db.users.find? (fun x => x.id == rid) with
  | none => simp only [h1] at hok; exact absurd hok (by simp)
  | some rejecter =>
  simp only [h1] at hok
  cases h2 : db.users.find? (fun x => x.id == tid) with
  | none => simp only [h2] at hok; exact absurd hok (by simp)
  | some target =>
  simp only [h2] at hok
  by_cases h3 : rejecter.approvalStatus ≠ ApprovalStatus.approved
  · rw [if_pos h3] at hok
    exact absurd hok (by simp)
  rw [if_neg h3] at hok
  by_cases h4 : target.approvalStatus ≠ ApprovalStatus.pending ∨ target.role ≠ Role.forumHead
  · rw [if_pos h4] at hok
    exact absurd hok (by simp)
  rw [if_neg h4] at hok
  by_cases h5 : rejecter.collegeId ≠ target.collegeId
  · rw [if_pos h5] at hok
    exact absurd hok (by simp)
  rw [if_neg h5] at hok
  by_cases h6 : ¬ ((db.forumHeads.filter (fun x => x.userId == tid)).any (fun a =>
      (db.forumHeads.filter (fun x => x.userId == rid)).any
        (fun b => b.forumId == a.forumId)) = true)
  · rw [if_pos h6] at hok
    exact absurd hok (by simp)
  rw [if_neg h6] at hok
  simp only [Except.ok.injEq, Prod.mk.injEq] at hok
  obtain ⟨hdb, hu⟩ := hok
  subst hdb
  refine ⟨rfl, ?_⟩
  intro fh hmem
  have hpred := (List.mem_filter.mp hmem).2
  simpa using hpred

/-- Witness for C10: target 2 held a pending membership in forum 10 and a
VERIFIED membership in forum 30 not shared with rejecter 1; after rejection
both rows are gone. -/
theorem c10_witness :
    dbC10res.forumHeads = dbC10.forumHeads.filter (fun fh => fh.userId != 2) ∧
    ∀ fh ∈ dbC10res.forumHeads, fh.userId ≠ 2 :=
  c10_rejectForumHead_removes_memberships dbC10 1 2 dbC10res uT10rej rfl

end Unibook
